import Mathlib

/-! Shallow embedding of the zygote process-spawning native code
(`dalvik_system_Zygote.cc`): the SIGCHLD reaper, the privilege-transition
sequence executed inside a freshly forked child, and the fork entry
points (`Zygote_nativeForkAndSpecialize`, `Zygote_nativeForkSystemServer`,
`Zygote_nativeExecShell`).  Stateful OS interaction is made explicit: the
child's code is a sequence of fallible fragments, each committing a list
of syscall events; an oracle (`OS`) decides which syscalls succeed, and a
small Linux privilege-state semantics (`ProcState`, `applyEvent`) gives
meaning to the committed events. -/

namespace Zygote

/-- Syscall-level events a specialized child commits, in program order.
Only successful syscalls are recorded: a failed fatal syscall aborts the
child via `LOG(FATAL)`, committing nothing further. -/
inductive Event where
  | markZygoteChild
  | enableKeepCaps
  | setgroups (gids : List Int)
  | setrlimit (resource cur max : Int)
  | setgid (g : Int)
  | setuid (u : Int)
  | personality
  | capset (permitted effective : Int)
  | setSchedPolicy
  | setcontext (uid : Int) (isSystemServer : Bool) (seInfo seName : Option String)
  | initAfterFork
  | enableDebugFeatures (flags : Int)
  | unsetSigChld
  | didForkFromZygote
  deriving DecidableEq

/-- The caller-supplied security profile: the parameters of
`ForkAndSpecializeCommon` in the source. -/
structure Profile where
  uid : Int
  gid : Int
  gids : Option (List Int)
  debug_flags : Int
  rlimits : Option (List (List Int))
  permittedCapabilities : Int
  effectiveCapabilities : Int
  mount_external : Int
  se_info : Option String
  se_name : Option String
  is_system_server : Bool

/-- Oracle deciding whether each OS privilege primitive called by the
child succeeds; this models the kernel's per-syscall failure behaviour. -/
structure OS where
  keepcaps_ok : Bool
  setgroups_ok : List Int → Bool
  setrlimit_ok : Int → Int → Int → Bool
  setgid_ok : Int → Bool
  setuid_ok : Int → Bool
  needsNoRandomizeWorkaround : Bool
  personality_ok : Bool
  capset_ok : Int → Int → Bool
  sched_ok : Bool
  setcontext_ok : Bool

/-- Result of one fragment of the child's specialization code: the events
committed, and whether the child is still alive (`true`) or has died on a
`LOG(FATAL)` / `PLOG(FATAL)` (`false`). -/
abbrev ChildStep := List Event × Bool

/-- Sequential composition of child-code fragments: once a fragment has
died on `LOG(FATAL)` the following fragment never runs. -/
def seqStep (a b : ChildStep) : ChildStep :=
  if a.2 then (a.1 ++ b.1, b.2) else a

/-- `EnableKeepCapabilities`: `prctl(PR_SET_KEEPCAPS, 1)`, fatal on failure. -/
def EnableKeepCapabilities (os : OS) : ChildStep :=
  if os.keepcaps_ok then ([Event.enableKeepCaps], true) else ([], false)

/-- The guarded call site of `EnableKeepCapabilities`: capabilities are
kept across the uid change only when the child is not staying root. -/
def keepCapsIfNotRoot (p : Profile) (os : OS) : ChildStep :=
  if p.uid ≠ 0 then EnableKeepCapabilities os else ([], true)

/-- `MountExternalStorage`: a no-op for `MOUNT_EXTERNAL_NONE` (0); every
other mode hits `UNIMPLEMENTED(FATAL)` in the compiled configuration. -/
def MountExternalStorage (mount_external : Int) : ChildStep :=
  if mount_external = 0 then ([], true) else ([], false)

/-- `SetGids`: `setgroups` on the supplied list, fatal on failure; a
missing (`NULL`) array is tolerated and changes nothing. -/
def SetGids (gids : Option (List Int)) (os : OS) : ChildStep :=
  match gids with
  | none => ([], true)
  | some gs => if os.setgroups_ok gs then ([Event.setgroups gs], true) else ([], false)

/-- Loop body of `SetRLimits`: each row must be a `(resource, cur, max)`
triple (fatal otherwise), applied with `setrlimit`, fatal on failure. -/
def setRLimitsList (os : OS) : List (List Int) → ChildStep
  | [] => ([], true)
  | [resource, cur, max] :: rest =>
    if os.setrlimit_ok resource cur max then
      seqStep ([Event.setrlimit resource cur max], true) (setRLimitsList os rest)
    else ([], false)
  | _ :: _ => ([], false)

/-- `SetRLimits`: `NULL` is treated as an empty array. -/
def SetRLimits (rlimits : Option (List (List Int))) (os : OS) : ChildStep :=
  match rlimits with
  | none => ([], true)
  | some rs => setRLimitsList os rs

/-- The identity change of `ForkAndSpecializeCommon`: `setgid(gid)` then
`setuid(uid)`, each fatal on failure, in exactly that program order. -/
def identityChange (p : Profile) (os : OS) : ChildStep :=
  seqStep (if os.setgid_ok p.gid then ([Event.setgid p.gid], true) else ([], false))
    (if os.setuid_ok p.uid then ([Event.setuid p.uid], true) else ([], false))

/-- The `NeedsNoRandomizeWorkaround` block: a best-effort `personality`
adjustment whose failure is only logged, never fatal. -/
def noRandomizeWorkaround (os : OS) : ChildStep :=
  if os.needsNoRandomizeWorkaround then
    if os.personality_ok then ([Event.personality], true) else ([], true)
  else ([], true)

/-- `SetCapabilities`: one `capset` installing the profile's permitted and
effective bitmasks, fatal on failure. -/
def SetCapabilities (permitted effective : Int) (os : OS) : ChildStep :=
  if os.capset_ok permitted effective then
    ([Event.capset permitted effective], true)
  else ([], false)

/-- `SetSchedulerPolicy`: `set_sched_policy(0, SP_DEFAULT)`, fatal on failure. -/
def SetSchedulerPolicy (os : OS) : ChildStep :=
  if os.sched_ok then ([Event.setSchedPolicy], true) else ([], false)

/-- The `selinux_android_setcontext` block: applies the MAC label derived
from the profile's hints and the system-server flag, fatal on failure. -/
def selinuxSetContext (p : Profile) (os : OS) : ChildStep :=
  if os.setcontext_ok then
    ([Event.setcontext p.uid p.is_system_server p.se_info p.se_name], true)
  else ([], false)

/-- Tail of the child branch: `Thread::InitAfterFork`,
`EnableDebugFeatures`, `UnsetSigChldHandler`, `DidForkFromZygote` — the
hand-off to the child's role-specific entry point. -/
def handoffSteps (p : Profile) : ChildStep :=
  ([Event.initAfterFork, Event.enableDebugFeatures p.debug_flags,
    Event.unsetSigChld, Event.didForkFromZygote], true)

/-- The fragments of the child branch preceding the identity change, in
source order: the `gMallocLeakZygoteChild` marker, conditional
keep-capabilities, external-storage mount, supplementary groups and
resource limits. -/
def preIdentity (p : Profile) (os : OS) : ChildStep :=
  seqStep ([Event.markZygoteChild], true)
    (seqStep (keepCapsIfNotRoot p os)
      (seqStep (MountExternalStorage p.mount_external)
        (seqStep (SetGids p.gids os) (SetRLimits p.rlimits os))))

/-- The fragments of the child branch following the identity change, in
source order: ASLR workaround, capability installation, scheduler policy,
MAC label, and the hand-off tail. -/
def postIdentity (p : Profile) (os : OS) : ChildStep :=
  seqStep (noRandomizeWorkaround os)
    (seqStep (SetCapabilities p.permittedCapabilities p.effectiveCapabilities os)
      (seqStep (SetSchedulerPolicy os)
        (seqStep (selinuxSetContext p os) (handoffSteps p))))

/-- The complete child branch of `ForkAndSpecializeCommon` (the
privilege-transition sequencer), assembled in exact source order. -/
def specializeChild (p : Profile) (os : OS) : ChildStep :=
  seqStep (preIdentity p os) (seqStep (identityChange p os) (postIdentity p os))

/-- Parent-visible result of `ForkAndSpecializeCommon`: the zygote aborts
on `LOG(FATAL)` before forking, or the fork fails and `-1` is returned to
the caller, or a child is spawned (carrying the child branch's execution). -/
inductive SpawnResult where
  | fatalService
  | forkFailed (ret : Int)
  | spawned (pid : Int) (child : ChildStep)
  deriving DecidableEq

/-- Environment of one spawn request: whether the pre-fork heap quiescence
(`Runtime::PreZygoteFork`) succeeds, the `fork()` outcome observed by the
parent (`none` is a failed fork), and the child-side syscall oracle. -/
structure SpawnEnv where
  preForkOk : Bool
  forkResult : Option Int
  os : OS

/-- `ForkAndSpecializeCommon`, from the parent process's point of view:
a `PreZygoteFork` failure is `LOG(FATAL)` in the zygote itself; a failed
`fork()` returns `-1` to the caller; otherwise the parent returns the
child pid while the child runs `specializeChild`. -/
def ForkAndSpecializeCommon (p : Profile) (env : SpawnEnv) : SpawnResult :=
  if env.preForkOk then
    match env.forkResult with
    | none => SpawnResult.forkFailed (-1)
    | some pid => SpawnResult.spawned pid (specializeChild p env.os)
  else SpawnResult.fatalService

/-- The value the original (parent-process) caller receives from a spawn;
a zygote abort returns nothing to anyone. -/
def callerReturn : SpawnResult → Option Int
  | SpawnResult.fatalService => none
  | SpawnResult.forkFailed r => some r
  | SpawnResult.spawned pid _ => some pid

/-- Whether the spawning service itself is still alive after the request. -/
def serviceSurvives : SpawnResult → Bool
  | SpawnResult.fatalService => false
  | _ => true

/-- Profile built by the application-spawn entry point
`Zygote_nativeForkAndSpecialize`: both capability bitmasks are the literal
constant `0` and the system-server flag is `false`. -/
def appSpawnProfile (uid gid : Int) (gids : Option (List Int)) (debug_flags : Int)
    (rlimits : Option (List (List Int))) (mount_external : Int)
    (se_info se_name : Option String) : Profile :=
  { uid := uid, gid := gid, gids := gids, debug_flags := debug_flags,
    rlimits := rlimits, permittedCapabilities := 0, effectiveCapabilities := 0,
    mount_external := mount_external, se_info := se_info, se_name := se_name,
    is_system_server := false }

/-- `Zygote_nativeForkAndSpecialize`: the application-spawn entry point. -/
def Zygote_nativeForkAndSpecialize (uid gid : Int) (gids : Option (List Int))
    (debug_flags : Int) (rlimits : Option (List (List Int))) (mount_external : Int)
    (se_info se_name : Option String) (env : SpawnEnv) : SpawnResult :=
  ForkAndSpecializeCommon
    (appSpawnProfile uid gid gids debug_flags rlimits mount_external se_info se_name) env

/-- Profile built by the singleton entry point
`Zygote_nativeForkSystemServer`: capability bitmasks are passed through
from the caller, the mount mode is `MOUNT_EXTERNAL_NONE`, the SELinux
hints are `NULL`, and the system-server flag is `true`. -/
def systemServerProfile (uid gid : Int) (gids : Option (List Int)) (debug_flags : Int)
    (rlimits : Option (List (List Int)))
    (permittedCapabilities effectiveCapabilities : Int) : Profile :=
  { uid := uid, gid := gid, gids := gids, debug_flags := debug_flags,
    rlimits := rlimits, permittedCapabilities := permittedCapabilities,
    effectiveCapabilities := effectiveCapabilities, mount_external := 0,
    se_info := none, se_name := none, is_system_server := true }

/-- Bookkeeping steps the parent performs after a singleton fork, in
program order. -/
inductive ParentAction where
  | registerPid (pid : Int)
  | recheckLiveness (pid : Int)
  | abortService
  deriving DecidableEq

/-- Outcome of `Zygote_nativeForkSystemServer`'s parent path: the ordered
bookkeeping actions, the final value of the `gSystemServerPid` registry,
and the value returned to the caller (`none` when the zygote aborted). -/
structure SystemServerResult where
  actions : List ParentAction
  registry : Int
  returned : Option Int
  deriving DecidableEq

/-- The `if (pid > 0)` block of `Zygote_nativeForkSystemServer`: publish
the pid in `gSystemServerPid`, then re-check liveness with a non-blocking
`waitpid`; if the child is already dead, `LOG(FATAL)` the whole zygote
instead of returning. -/
def systemServerParentPath (pid : Int) (reg0 : Int) (childDead : Bool) :
    SystemServerResult :=
  if 0 < pid then
    if childDead then
      { actions := [ParentAction.registerPid pid, ParentAction.recheckLiveness pid,
                    ParentAction.abortService],
        registry := pid, returned := none }
    else
      { actions := [ParentAction.registerPid pid, ParentAction.recheckLiveness pid],
        registry := pid, returned := some pid }
  else { actions := [], registry := reg0, returned := some pid }

/-- `Zygote_nativeForkSystemServer`: the singleton-spawn entry point.
`reg0` is the prior value of `gSystemServerPid`; `childDead` is what the
non-blocking liveness re-check observes. -/
def Zygote_nativeForkSystemServer (uid gid : Int) (gids : Option (List Int))
    (debug_flags : Int) (rlimits : Option (List (List Int)))
    (permittedCapabilities effectiveCapabilities : Int)
    (env : SpawnEnv) (reg0 : Int) (childDead : Bool) :
    SpawnResult × SystemServerResult :=
  let r := ForkAndSpecializeCommon
    (systemServerProfile uid gid gids debug_flags rlimits
      permittedCapabilities effectiveCapabilities) env
  match r with
  | SpawnResult.fatalService =>
      (r, { actions := [], registry := reg0, returned := none })
  | SpawnResult.forkFailed ret => (r, systemServerParentPath ret reg0 childDead)
  | SpawnResult.spawned pid _ => (r, systemServerParentPath pid reg0 childDead)

/-- What one invocation of the SIGCHLD handler does: reap a terminated
child, or deliver `SIGKILL` to the zygote itself. -/
inductive ReapAction where
  | reap (pid status : Int)
  | killSelf
  deriving DecidableEq

/-- `SigChldHandler`: drain the pending-zombie queue with non-blocking
`waitpid(-1, WNOHANG)`; whenever the reaped pid equals the registered
system-server pid, the zygote sends itself the unblockable `SIGKILL`, so
nothing after that point executes. -/
def SigChldHandler (pending : List (Int × Int)) (systemServerPid : Int) :
    List ReapAction :=
  match pending with
  | [] => []
  | (pid, status) :: rest =>
    if pid = systemServerPid then [ReapAction.reap pid status, ReapAction.killSelf]
    else ReapAction.reap pid status :: SigChldHandler rest systemServerPid

/-- Test for the self-kill action. -/
def isKill : ReapAction → Bool
  | ReapAction.killSelf => true
  | _ => false

/-- Test for a reap of the given pid. -/
def isReapOf (ss : Int) : ReapAction → Bool
  | ReapAction.reap p _ => p = ss
  | _ => false

/-- The pids actually reaped during one handler invocation. -/
def reapedPids (acts : List ReapAction) : List Int :=
  acts.filterMap fun a =>
    match a with
    | ReapAction.reap p _ => some p
    | _ => none

/-- Nothing is executed after a self-delivered `SIGKILL`. -/
def noActionAfterKill : List ReapAction → Bool
  | [] => true
  | ReapAction.killSelf :: rest => rest.isEmpty
  | _ :: rest => noActionAfterKill rest

/-- Outcome of `Zygote_nativeExecShell` for the calling process. -/
inductive ExecOutcome where
  | returned
  | replaced (path : String) (argv : List String)
  | exited (status : Int)
  deriving DecidableEq

/-- The shell path `_PATH_BSHELL`. -/
def PATH_BSHELL : String := "/bin/sh"

/-- `Zygote_nativeExecShell`: a `NULL` command returns to the caller; a
successful `execv` replaces the process image with `sh -c command` and
never returns; a failed `execv` falls through to `exit(127)`. -/
def Zygote_nativeExecShell (command : Option String) (execvSucceeds : Bool) :
    ExecOutcome :=
  match command with
  | none => ExecOutcome.returned
  | some c =>
    if execvSucceeds then ExecOutcome.replaced PATH_BSHELL [PATH_BSHELL, "-c", c]
    else ExecOutcome.exited 127

/-- Per-process privilege state as manipulated by the committed events;
the capability clauses follow the Linux semantics the source relies on:
`setuid` away from root clears the effective set and, unless
`PR_SET_KEEPCAPS` is in force, the permitted set, while `capset`
installs both sets exactly. -/
structure ProcState where
  uid : Int
  gid : Int
  groups : List Int
  keepcaps : Bool
  permitted : Int
  effective : Int

/-- Effect of one committed event on the process's privilege state. -/
def applyEvent (s : ProcState) : Event → ProcState
  | Event.markZygoteChild => s
  | Event.enableKeepCaps => { s with keepcaps := true }
  | Event.setgroups gs => { s with groups := gs }
  | Event.setrlimit _ _ _ => s
  | Event.setgid g => { s with gid := g }
  | Event.setuid u =>
      if s.uid = 0 ∧ ¬ u = 0 then
        { s with uid := u, effective := 0,
                 permitted := if s.keepcaps then s.permitted else 0 }
      else { s with uid := u }
  | Event.personality => s
  | Event.capset perm eff => { s with permitted := perm, effective := eff }
  | Event.setSchedPolicy => s
  | Event.setcontext _ _ _ _ => s
  | Event.initAfterFork => s
  | Event.enableDebugFeatures _ => s
  | Event.unsetSigChld => s
  | Event.didForkFromZygote => s

/-- Run a trace of committed events from a starting privilege state. -/
def runTrace (s : ProcState) : List Event → ProcState
  | [] => s
  | e :: t => runTrace (applyEvent s e) t

/-- Scanner: `false` exactly when some `setuid` occurs with no `setgid`
strictly before it. -/
def noSetuidBeforeSetgid : List Event → Bool
  | [] => true
  | Event.setuid _ :: _ => false
  | Event.setgid _ :: _ => true
  | _ :: t => noSetuidBeforeSetgid t

/-- Scanner: `false` exactly when some `capset` occurs with no `setuid`
strictly before it. -/
def noCapsetBeforeSetuid : List Event → Bool
  | [] => true
  | Event.capset _ _ :: _ => false
  | Event.setuid _ :: _ => true
  | _ :: t => noCapsetBeforeSetuid t

/-- Events that can be committed before the identity change: everything
the pre-identity fragments may emit. -/
def preEvent : Event → Bool
  | Event.markZygoteChild => true
  | Event.enableKeepCaps => true
  | Event.setgroups _ => true
  | Event.setrlimit _ _ _ => true
  | _ => false

/-- Projection of a trace to its committed resource-limit triples. -/
def rlimitEvents (t : List Event) : List (Int × Int × Int) :=
  t.filterMap fun e =>
    match e with
    | Event.setrlimit a b c => some (a, b, c)
    | _ => none

/-- Whether every resource-limit row is a well-formed triple accepted by
the OS. -/
def rlimitsAllOk (os : OS) (rs : List (List Int)) : Bool :=
  rs.all fun r =>
    match r with
    | [resource, cur, max] => os.setrlimit_ok resource cur max
    | _ => false

/-- The well-formed `(resource, soft, hard)` triples among the rows, in
order. -/
def rlimitTriples (rs : List (List Int)) : List (Int × Int × Int) :=
  rs.filterMap fun r =>
    match r with
    | [resource, cur, max] => some (resource, cur, max)
    | _ => none

/-- An oracle on which every syscall succeeds and no workaround is needed. -/
def osAllOk : OS :=
  { keepcaps_ok := true, setgroups_ok := fun _ => true,
    setrlimit_ok := fun _ _ _ => true, setgid_ok := fun _ => true,
    setuid_ok := fun _ => true, needsNoRandomizeWorkaround := false,
    personality_ok := true, capset_ok := fun _ _ => true, sched_ok := true,
    setcontext_ok := true }

/-- In one handler invocation the self-kill count is `1` exactly when the
registered singleton pid is among the reaped pids, and `0` otherwise. -/
theorem sigchld_kill_count (pending : List (Int × Int)) (ss : Int) :
    (SigChldHandler pending ss).countP isKill =
      (if (SigChldHandler pending ss).any (isReapOf ss) then 1 else 0) := by
  induction pending with
  | nil => simp [SigChldHandler]
  | cons head rest ih =>
    obtain ⟨pid, status⟩ := head
    by_cases h : pid = ss
    · simp [SigChldHandler, h, isKill, isReapOf, List.countP_cons, List.any_cons]
    · simp [SigChldHandler, h, isKill, isReapOf, List.countP_cons, List.any_cons, ih]

/-- Once the handler has sent the self-`SIGKILL`, nothing further runs. -/
theorem sigchld_kill_terminal (pending : List (Int × Int)) (ss : Int) :
    noActionAfterKill (SigChldHandler pending ss) = true := by
  induction pending with
  | nil => simp [SigChldHandler, noActionAfterKill]
  | cons head rest ih =>
    obtain ⟨pid, status⟩ := head
    by_cases h : pid = ss
    · simp [SigChldHandler, h, noActionAfterKill]
    · simpa [SigChldHandler, h, noActionAfterKill] using ih

/-- C3: whenever the SIGCHLD handler reaps a pid equal to the registered
singleton pid it terminates the whole service by a self-delivered
unblockable kill, after which nothing further executes, and this
termination happens exactly once per invocation (and never when the
singleton pid is not among the reaped pids). -/
theorem sigchld_singleton_death_kills_service_once
    (pending : List (Int × Int)) (ss : Int) :
    (SigChldHandler pending ss).countP isKill =
        (if (SigChldHandler pending ss).any (isReapOf ss) then 1 else 0) ∧
      noActionAfterKill (SigChldHandler pending ss) = true :=
  ⟨sigchld_kill_count pending ss, sigchld_kill_terminal pending ss⟩

/-- C5 counterexample: with two children pending termination and the
first one being the registered singleton, the handler reaps only the
singleton and kills the service, leaving the second zombie unreaped —
so one invocation does not reap all `N` pending pids. -/
theorem sigchld_drain_not_total_when_singleton_dies :
    SigChldHandler [(5, 0), (7, 0)] 5 = [ReapAction.reap 5 0, ReapAction.killSelf] ∧
      reapedPids (SigChldHandler [(5, 0), (7, 0)] 5) ≠
        List.map Prod.fst [((5 : Int), (0 : Int)), (7, 0)] := by
  constructor
  · rfl
  · decide

/-- C5 as amended: provided none of the pending pids equals the
registered singleton pid, one invocation reaps exactly the pending pids,
in order — no pid twice, no terminated child left behind — and never
terminates the service. -/
theorem sigchld_drains_all_when_singleton_alive
    (pending : List (Int × Int)) (ss : Int)
    (h : ss ∉ pending.map Prod.fst) :
    reapedPids (SigChldHandler pending ss) = pending.map Prod.fst ∧
      (SigChldHandler pending ss).countP isKill = 0 := by
  induction pending with
  | nil => simp [SigChldHandler, reapedPids]
  | cons head rest ih =>
    obtain ⟨pid, status⟩ := head
    simp only [List.map_cons, List.mem_cons, not_or] at h
    obtain ⟨hne, hrest⟩ := h
    have hpid : ¬ pid = ss := fun hc => hne hc.symm
    obtain ⟨ih1, ih2⟩ := ih hrest
    refine ⟨?_, ?_⟩
    · simp [SigChldHandler, hpid, reapedPids, List.filterMap_cons] at ih1 ⊢
      exact ih1
    · simp [SigChldHandler, hpid, List.countP_cons, isKill, ih2]

/-- Witness for `sigchld_drains_all_when_singleton_alive` at a concrete
queue of three zombies with a live singleton. -/
theorem sigchld_drains_all_when_singleton_alive_witness :
    (99 : Int) ∉ List.map Prod.fst [((3 : Int), (0 : Int)), (4, 9), (8, 11)] ∧
      reapedPids (SigChldHandler [(3, 0), (4, 9), (8, 11)] 99) =
          List.map Prod.fst [((3 : Int), (0 : Int)), (4, 9), (8, 11)] ∧
        (SigChldHandler [(3, 0), (4, 9), (8, 11)] 99).countP isKill = 0 :=
  ⟨by decide, sigchld_drains_all_when_singleton_alive [(3, 0), (4, 9), (8, 11)] 99 (by decide)⟩

/-- C9: `Zygote_nativeExecShell` on a non-`NULL` command either replaces
the process image with `sh -c command` and never returns to the caller,
or — when the shell cannot be executed — exits with the fixed status
`127` and nothing else. -/
theorem execShell_replaces_or_exits_127 (c : String) :
    Zygote_nativeExecShell (some c) true =
        ExecOutcome.replaced PATH_BSHELL [PATH_BSHELL, "-c", c] ∧
      Zygote_nativeExecShell (some c) true ≠ ExecOutcome.returned ∧
        Zygote_nativeExecShell (some c) false = ExecOutcome.exited 127 := by
  refine ⟨rfl, ?_, rfl⟩
  simp [Zygote_nativeExecShell]

theorem seqStep_fst (a b : ChildStep) :
    (seqStep a b).1 = if a.2 then a.1 ++ b.1 else a.1 := by
  unfold seqStep
  split <;> rfl

theorem seqStep_snd (a b : ChildStep) : (seqStep a b).2 = (a.2 && b.2) := by
  unfold seqStep
  split <;> simp_all

theorem mem_seqStep {e : Event} {a b : ChildStep} :
    e ∈ (seqStep a b).1 ↔ e ∈ a.1 ∨ (a.2 = true ∧ e ∈ b.1) := by
  unfold seqStep
  split <;> simp_all

theorem mem_keepCapsIfNotRoot {p : Profile} {os : OS} {e : Event}
    (h : e ∈ (keepCapsIfNotRoot p os).1) : e = Event.enableKeepCaps := by
  unfold keepCapsIfNotRoot EnableKeepCapabilities at h
  split at h
  · split at h <;> simp_all
  · simp_all

theorem MountExternalStorage_fst (m : Int) : (MountExternalStorage m).1 = [] := by
  unfold MountExternalStorage
  split <;> rfl

theorem mem_SetGids {g : Option (List Int)} {os : OS} {e : Event}
    (h : e ∈ (SetGids g os).1) : ∃ gs, e = Event.setgroups gs := by
  cases g with
  | none => simp [SetGids] at h
  | some gs =>
    have h' : e ∈ (if os.setgroups_ok gs then ([Event.setgroups gs], true)
        else (([], false) : ChildStep)).1 := h
    split at h'
    · exact ⟨gs, List.mem_singleton.mp h'⟩
    · exact absurd h' (List.not_mem_nil e)

theorem mem_setRLimitsList {os : OS} {e : Event} :
    ∀ {rs : List (List Int)}, e ∈ (setRLimitsList os rs).1 →
      ∃ a b c, e = Event.setrlimit a b c := by
  intro rs
  induction rs with
  | nil => intro h; simp [setRLimitsList] at h
  | cons r rest ih =>
    intro h
    rcases r with _ | ⟨a, _ | ⟨b, _ | ⟨c, _ | ⟨d, r'⟩⟩⟩⟩
    · simp [setRLimitsList] at h
    · simp [setRLimitsList] at h
    · simp [setRLimitsList] at h
    · simp only [setRLimitsList] at h
      split at h
      · rcases mem_seqStep.mp h with h1 | h2
        · exact ⟨a, b, c, by simpa using h1⟩
        · exact ih h2.2
      · exact absurd h (List.not_mem_nil e)
    · simp [setRLimitsList] at h

theorem mem_SetRLimits {r : Option (List (List Int))} {os : OS} {e : Event}
    (h : e ∈ (SetRLimits r os).1) : ∃ a b c, e = Event.setrlimit a b c := by
  unfold SetRLimits at h
  match r with
  | none => simp_all
  | some rs => exact mem_setRLimitsList h

theorem mem_preIdentity {p : Profile} {os : OS} {e : Event}
    (h : e ∈ (preIdentity p os).1) : preEvent e = true := by
  unfold preIdentity at h
  rcases mem_seqStep.mp h with h1 | ⟨-, h1⟩
  · simp at h1
    simp [h1, preEvent]
  rcases mem_seqStep.mp h1 with h2 | ⟨-, h2⟩
  · simp [mem_keepCapsIfNotRoot h2, preEvent]
  rcases mem_seqStep.mp h2 with h3 | ⟨-, h3⟩
  · rw [MountExternalStorage_fst] at h3
    simp at h3
  rcases mem_seqStep.mp h3 with h4 | ⟨-, h4⟩
  · obtain ⟨gs, rfl⟩ := mem_SetGids h4
    simp [preEvent]
  · obtain ⟨a, b, c, rfl⟩ := mem_SetRLimits h4
    simp [preEvent]

theorem mem_identityChange {p : Profile} {os : OS} {e : Event}
    (h : e ∈ (identityChange p os).1) :
    e = Event.setgid p.gid ∨ e = Event.setuid p.uid := by
  unfold identityChange at h
  rcases mem_seqStep.mp h with h1 | ⟨-, h1⟩ <;> split at h1 <;> simp_all

theorem noSetuidBeforeSetgid_cons_pre {e : Event} (h : preEvent e = true)
    (t : List Event) :
    noSetuidBeforeSetgid (e :: t) = noSetuidBeforeSetgid t := by
  cases e <;> simp_all [preEvent, noSetuidBeforeSetgid]

theorem noSetuidBeforeSetgid_append_pre {l : List Event}
    (h : ∀ e ∈ l, preEvent e = true) (t : List Event) :
    noSetuidBeforeSetgid (l ++ t) = noSetuidBeforeSetgid t := by
  induction l with
  | nil => rfl
  | cons e l ih =>
    rw [List.cons_append, noSetuidBeforeSetgid_cons_pre (h e (by simp))]
    exact ih fun x hx => h x (by simp [hx])

theorem noSetuidBeforeSetgid_of_pre {l : List Event}
    (h : ∀ e ∈ l, preEvent e = true) : noSetuidBeforeSetgid l = true := by
  induction l with
  | nil => rfl
  | cons e l ih =>
    rw [noSetuidBeforeSetgid_cons_pre (h e (by simp))]
    exact ih fun x hx => h x (by simp [hx])

theorem noCapsetBeforeSetuid_cons_pre {e : Event} (h : preEvent e = true)
    (t : List Event) :
    noCapsetBeforeSetuid (e :: t) = noCapsetBeforeSetuid t := by
  cases e <;> simp_all [preEvent, noCapsetBeforeSetuid]

theorem noCapsetBeforeSetuid_append_pre {l : List Event}
    (h : ∀ e ∈ l, preEvent e = true) (t : List Event) :
    noCapsetBeforeSetuid (l ++ t) = noCapsetBeforeSetuid t := by
  induction l with
  | nil => rfl
  | cons e l ih =>
    rw [List.cons_append, noCapsetBeforeSetuid_cons_pre (h e (by simp))]
    exact ih fun x hx => h x (by simp [hx])

theorem specializeChild_fst (p : Profile) (os : OS) :
    (specializeChild p os).1 =
      if (preIdentity p os).2 then
        (preIdentity p os).1 ++
          (if (identityChange p os).2 then
            (identityChange p os).1 ++ (postIdentity p os).1
          else (identityChange p os).1)
      else (preIdentity p os).1 := by
  unfold specializeChild
  rw [seqStep_fst, seqStep_fst]

theorem specializeChild_snd (p : Profile) (os : OS) :
    (specializeChild p os).2 =
      ((preIdentity p os).2 && ((identityChange p os).2 && (postIdentity p os).2)) := by
  unfold specializeChild
  rw [seqStep_snd, seqStep_snd]

/-- In every child trace, every committed `setuid` is strictly preceded
by a committed `setgid`. -/
theorem specializeChild_setgid_before_setuid (p : Profile) (os : OS) :
    noSetuidBeforeSetgid (specializeChild p os).1 = true := by
  rw [specializeChild_fst]
  by_cases hpre : (preIdentity p os).2 = true
  · simp only [hpre, if_true]
    rw [noSetuidBeforeSetgid_append_pre fun e he => mem_preIdentity he]
    by_cases hg : os.setgid_ok p.gid = true
    · by_cases hu : os.setuid_ok p.uid = true
      · simp [identityChange, seqStep, hg, hu, noSetuidBeforeSetgid]
      · simp [identityChange, seqStep, hg, hu, noSetuidBeforeSetgid]
    · simp [identityChange, seqStep, hg, noSetuidBeforeSetgid]
  · simp only [hpre, if_false]
    exact noSetuidBeforeSetgid_of_pre fun e he => mem_preIdentity he

theorem noRandomizeWorkaround_cases (os : OS) :
    noRandomizeWorkaround os = ([], true) ∨
      noRandomizeWorkaround os = ([Event.personality], true) := by
  unfold noRandomizeWorkaround
  by_cases h1 : os.needsNoRandomizeWorkaround = true
  · by_cases h2 : os.personality_ok = true
    · right; simp [h1, h2]
    · left; simp [h1, h2]
  · left; simp [h1]

theorem noRandomizeWorkaround_snd (os : OS) : (noRandomizeWorkaround os).2 = true := by
  rcases noRandomizeWorkaround_cases os with h | h <;> rw [h]

theorem SetCapabilities_snd (P E : Int) (os : OS) :
    (SetCapabilities P E os).2 = os.capset_ok P E := by
  unfold SetCapabilities
  split <;> simp_all

theorem SetSchedulerPolicy_snd (os : OS) :
    (SetSchedulerPolicy os).2 = os.sched_ok := by
  unfold SetSchedulerPolicy
  split <;> simp_all

theorem selinuxSetContext_snd (p : Profile) (os : OS) :
    (selinuxSetContext p os).2 = os.setcontext_ok := by
  unfold selinuxSetContext
  split <;> simp_all

theorem handoffSteps_snd (p : Profile) : (handoffSteps p).2 = true := rfl

theorem postIdentity_snd (p : Profile) (os : OS) :
    (postIdentity p os).2 =
      (os.capset_ok p.permittedCapabilities p.effectiveCapabilities &&
        (os.sched_ok && os.setcontext_ok)) := by
  unfold postIdentity
  rw [seqStep_snd, seqStep_snd, seqStep_snd, seqStep_snd, noRandomizeWorkaround_snd,
    SetCapabilities_snd, SetSchedulerPolicy_snd, selinuxSetContext_snd, handoffSteps_snd]
  simp

theorem preIdentity_snd (p : Profile) (os : OS) :
    (preIdentity p os).2 =
      ((keepCapsIfNotRoot p os).2 && ((MountExternalStorage p.mount_external).2 &&
        ((SetGids p.gids os).2 && (SetRLimits p.rlimits os).2))) := by
  unfold preIdentity
  rw [seqStep_snd, seqStep_snd, seqStep_snd, seqStep_snd]
  simp

theorem identityChange_entry {p : Profile} {os : OS}
    (h : (identityChange p os).2 = true) :
    identityChange p os = ([Event.setgid p.gid, Event.setuid p.uid], true) := by
  unfold identityChange at h ⊢
  by_cases hg : os.setgid_ok p.gid = true
  · by_cases hu : os.setuid_ok p.uid = true
    · simp [seqStep, hg, hu]
    · simp [seqStep, hg, hu] at h
  · simp [seqStep, hg] at h

theorem postIdentity_entry {p : Profile} {os : OS}
    (h : (postIdentity p os).2 = true) :
    ∃ per, (per = [] ∨ per = [Event.personality]) ∧
      (postIdentity p os).1 =
        per ++ [Event.capset p.permittedCapabilities p.effectiveCapabilities,
                Event.setSchedPolicy,
                Event.setcontext p.uid p.is_system_server p.se_info p.se_name,
                Event.initAfterFork, Event.enableDebugFeatures p.debug_flags,
                Event.unsetSigChld, Event.didForkFromZygote] := by
  rw [postIdentity_snd] at h
  simp only [Bool.and_eq_true] at h
  obtain ⟨hc, hs, hx⟩ := h
  rcases noRandomizeWorkaround_cases os with hn | hn
  · refine ⟨[], Or.inl rfl, ?_⟩
    simp [postIdentity, seqStep, hn, SetCapabilities, hc, SetSchedulerPolicy, hs,
      selinuxSetContext, hx, handoffSteps]
  · refine ⟨[Event.personality], Or.inr rfl, ?_⟩
    simp [postIdentity, seqStep, hn, SetCapabilities, hc, SetSchedulerPolicy, hs,
      selinuxSetContext, hx, handoffSteps]

theorem specializeChild_entry_decomp (p : Profile) (os : OS)
    (h : (specializeChild p os).2 = true) :
    ∃ pre per, (∀ e ∈ pre, preEvent e = true) ∧
      (per = [] ∨ per = [Event.personality]) ∧
      (specializeChild p os).1 =
        pre ++ Event.setgid p.gid :: Event.setuid p.uid :: per ++
          [Event.capset p.permittedCapabilities p.effectiveCapabilities,
           Event.setSchedPolicy,
           Event.setcontext p.uid p.is_system_server p.se_info p.se_name,
           Event.initAfterFork, Event.enableDebugFeatures p.debug_flags,
           Event.unsetSigChld, Event.didForkFromZygote] := by
  rw [specializeChild_snd] at h
  simp only [Bool.and_eq_true] at h
  obtain ⟨hpre, hid, hpost⟩ := h
  obtain ⟨per, hper, hpost1⟩ := postIdentity_entry hpost
  refine ⟨(preIdentity p os).1, per, (fun e he => mem_preIdentity he), hper, ?_⟩
  rw [specializeChild_fst]
  simp [hpre, hid, identityChange_entry hid, hpost1]

theorem runTrace_append (s : ProcState) (l1 l2 : List Event) :
    runTrace s (l1 ++ l2) = runTrace (runTrace s l1) l2 := by
  induction l1 generalizing s with
  | nil => rfl
  | cons e t ih => simp [runTrace, ih]

/-- The capability state after a completed specialization equals exactly
the profile's bitmasks, from any starting privilege state. -/
theorem specializeChild_caps (p : Profile) (os : OS) (s0 : ProcState)
    (hdone : (specializeChild p os).2 = true) :
    (runTrace s0 (specializeChild p os).1).permitted = p.permittedCapabilities ∧
      (runTrace s0 (specializeChild p os).1).effective = p.effectiveCapabilities := by
  obtain ⟨pre, per, hpree, hper, htr⟩ := specializeChild_entry_decomp p os hdone
  have htr2 : (specializeChild p os).1 =
      (pre ++ Event.setgid p.gid :: Event.setuid p.uid :: per) ++
        [Event.capset p.permittedCapabilities p.effectiveCapabilities,
         Event.setSchedPolicy,
         Event.setcontext p.uid p.is_system_server p.se_info p.se_name,
         Event.initAfterFork, Event.enableDebugFeatures p.debug_flags,
         Event.unsetSigChld, Event.didForkFromZygote] := by
    rw [htr]
  rw [htr2, runTrace_append]
  constructor <;> simp [runTrace, applyEvent]

theorem noCapsetBeforeSetuid_of_pre {l : List Event}
    (h : ∀ e ∈ l, preEvent e = true) : noCapsetBeforeSetuid l = true := by
  induction l with
  | nil => rfl
  | cons e l ih =>
    rw [noCapsetBeforeSetuid_cons_pre (h e (by simp))]
    exact ih fun x hx => h x (by simp [hx])

theorem noCapsetBeforeSetuid_setgid (g : Int) (t : List Event) :
    noCapsetBeforeSetuid (Event.setgid g :: t) = noCapsetBeforeSetuid t := rfl

theorem noCapsetBeforeSetuid_setuid (u : Int) (t : List Event) :
    noCapsetBeforeSetuid (Event.setuid u :: t) = true := rfl

/-- The committed `capset` installing the profile's bitmasks comes
strictly after the committed identity change. -/
theorem specializeChild_capset_after_identity (p : Profile) (os : OS) :
    noCapsetBeforeSetuid (specializeChild p os).1 = true := by
  rw [specializeChild_fst]
  by_cases hpre : (preIdentity p os).2 = true
  · simp only [hpre, if_true]
    rw [noCapsetBeforeSetuid_append_pre fun e he => mem_preIdentity he]
    by_cases hg : os.setgid_ok p.gid = true
    · by_cases hu : os.setuid_ok p.uid = true
      · simp [identityChange, seqStep, hg, hu, noCapsetBeforeSetuid]
      · simp [identityChange, seqStep, hg, hu, noCapsetBeforeSetuid]
    · simp [identityChange, seqStep, hg, noCapsetBeforeSetuid]
  · simp only [hpre, if_false]
    exact noCapsetBeforeSetuid_of_pre fun e he => mem_preIdentity he

/-- C1: for every profile with target uid ≠ 0 whose privilege-transition
sequence completes, the child's permitted and effective capability sets
equal exactly the profile's bitmasks (from any starting privilege state),
and the committed capability installation comes strictly after the
committed gid change and uid change. -/
theorem forkAndSpecialize_caps_exact_after_identity (p : Profile) (os : OS)
    (s0 : ProcState) (hu : p.uid ≠ 0)
    (hdone : (specializeChild p os).2 = true) :
    (runTrace s0 (specializeChild p os).1).permitted = p.permittedCapabilities ∧
      (runTrace s0 (specializeChild p os).1).effective = p.effectiveCapabilities ∧
        noCapsetBeforeSetuid (specializeChild p os).1 = true ∧
          noSetuidBeforeSetgid (specializeChild p os).1 = true := by
  obtain ⟨h1, h2⟩ := specializeChild_caps p os s0 hdone
  exact ⟨h1, h2, specializeChild_capset_after_identity p os,
    specializeChild_setgid_before_setuid p os⟩

/-- A concrete non-root application-style profile used by the witnesses. -/
def profileW : Profile :=
  { uid := 1000, gid := 1000, gids := some [1001, 1002], debug_flags := 0,
    rlimits := some [[7, 128, 256]], permittedCapabilities := 13,
    effectiveCapabilities := 9, mount_external := 0, se_info := none,
    se_name := none, is_system_server := false }

/-- The privileged parent's starting privilege state. -/
def procState0 : ProcState :=
  { uid := 0, gid := 0, groups := [], keepcaps := false,
    permitted := 4294967295, effective := 4294967295 }

/-- Witness for `forkAndSpecialize_caps_exact_after_identity` at a
concrete non-root profile on the all-succeeding oracle. -/
theorem forkAndSpecialize_caps_exact_after_identity_witness :
    profileW.uid ≠ 0 ∧ (specializeChild profileW osAllOk).2 = true ∧
      ((runTrace procState0 (specializeChild profileW osAllOk).1).permitted =
          profileW.permittedCapabilities ∧
        (runTrace procState0 (specializeChild profileW osAllOk).1).effective =
            profileW.effectiveCapabilities ∧
          noCapsetBeforeSetuid (specializeChild profileW osAllOk).1 = true ∧
            noSetuidBeforeSetgid (specializeChild profileW osAllOk).1 = true) :=
  ⟨by decide, by decide,
    forkAndSpecialize_caps_exact_after_identity profileW osAllOk procState0
      (by decide) (by decide)⟩

/-- C6: on a successful fork, the parent branch returns the child pid to
the original caller, while the child branch runs the privilege-transition
sequencer, whose execution is a committed trace plus a continue-or-die
outcome — never a caller-visible return value; when it completes, its
trace contains the whole sequence and ends by disarming the inherited
SIGCHLD override and handing off to the child's entry point. -/
theorem child_branch_runs_full_sequencer (p : Profile) (env : SpawnEnv) (pid : Int)
    (hpf : env.preForkOk = true) (hfork : env.forkResult = some pid) :
    ForkAndSpecializeCommon p env = SpawnResult.spawned pid (specializeChild p env.os) ∧
      callerReturn (ForkAndSpecializeCommon p env) = some pid ∧
        ((specializeChild p env.os).2 = true →
          Event.setgid p.gid ∈ (specializeChild p env.os).1 ∧
            Event.setuid p.uid ∈ (specializeChild p env.os).1 ∧
              Event.capset p.permittedCapabilities p.effectiveCapabilities ∈
                  (specializeChild p env.os).1 ∧
                Event.setcontext p.uid p.is_system_server p.se_info p.se_name ∈
                    (specializeChild p env.os).1 ∧
                  ∃ A, (specializeChild p env.os).1 =
                    A ++ [Event.unsetSigChld, Event.didForkFromZygote]) := by
  have hr : ForkAndSpecializeCommon p env =
      SpawnResult.spawned pid (specializeChild p env.os) := by
    unfold ForkAndSpecializeCommon
    rw [hfork]
    simp [hpf]
  refine ⟨hr, by rw [hr]; rfl, ?_⟩
  intro hdone
  obtain ⟨pre, per, hpree, hper, htr⟩ := specializeChild_entry_decomp p env.os hdone
  refine ⟨by rw [htr]; simp, by rw [htr]; simp, by rw [htr]; simp, by rw [htr]; simp,
    ⟨pre ++ Event.setgid p.gid :: Event.setuid p.uid :: per ++
      [Event.capset p.permittedCapabilities p.effectiveCapabilities,
       Event.setSchedPolicy,
       Event.setcontext p.uid p.is_system_server p.se_info p.se_name,
       Event.initAfterFork, Event.enableDebugFeatures p.debug_flags], ?_⟩⟩
  rw [htr]
  simp

/-- A spawn environment whose pre-fork step and fork both succeed. -/
def envOk : SpawnEnv := { preForkOk := true, forkResult := some 42, os := osAllOk }

/-- Witness for `child_branch_runs_full_sequencer` at a concrete profile
and a successful fork returning pid 42. -/
theorem child_branch_runs_full_sequencer_witness :
    envOk.preForkOk = true ∧ envOk.forkResult = some 42 ∧
      (ForkAndSpecializeCommon profileW envOk =
          SpawnResult.spawned 42 (specializeChild profileW envOk.os) ∧
        callerReturn (ForkAndSpecializeCommon profileW envOk) = some 42 ∧
          ((specializeChild profileW envOk.os).2 = true →
            Event.setgid profileW.gid ∈ (specializeChild profileW envOk.os).1 ∧
              Event.setuid profileW.uid ∈ (specializeChild profileW envOk.os).1 ∧
                Event.capset profileW.permittedCapabilities
                    profileW.effectiveCapabilities ∈
                    (specializeChild profileW envOk.os).1 ∧
                  Event.setcontext profileW.uid profileW.is_system_server
                      profileW.se_info profileW.se_name ∈
                      (specializeChild profileW envOk.os).1 ∧
                    ∃ A, (specializeChild profileW envOk.os).1 =
                      A ++ [Event.unsetSigChld, Event.didForkFromZygote])) :=
  ⟨rfl, rfl, child_branch_runs_full_sequencer profileW envOk 42 rfl rfl⟩

/-- C4: after a successful singleton fork the parent path first records
the returned pid in the singleton registry and then performs the
non-blocking liveness re-check; if the re-check observes the child
already dead, the zygote aborts instead of returning a stale pid, and
otherwise the pid is returned. -/
theorem forkSystemServer_registers_then_rechecks (uid gid : Int)
    (gids : Option (List Int)) (debug_flags : Int)
    (rlimits : Option (List (List Int))) (pc ec : Int) (env : SpawnEnv)
    (reg0 : Int) (childDead : Bool) (pid : Int)
    (hpf : env.preForkOk = true) (hfork : env.forkResult = some pid)
    (hpid : 0 < pid) :
    (Zygote_nativeForkSystemServer uid gid gids debug_flags rlimits pc ec env
        reg0 childDead).2.actions =
        ParentAction.registerPid pid :: ParentAction.recheckLiveness pid ::
          (if childDead then [ParentAction.abortService] else []) ∧
      (Zygote_nativeForkSystemServer uid gid gids debug_flags rlimits pc ec env
          reg0 childDead).2.registry = pid ∧
        (Zygote_nativeForkSystemServer uid gid gids debug_flags rlimits pc ec env
            reg0 childDead).2.returned =
          (if childDead then none else some pid) := by
  unfold Zygote_nativeForkSystemServer
  simp only [ForkAndSpecializeCommon, hpf, hfork, if_true]
  by_cases hd : childDead = true <;>
    simp [systemServerParentPath, hpid, hd]

/-- A concrete environment for the system-server witness. -/
def envOkSys : SpawnEnv := { preForkOk := true, forkResult := some 3, os := osAllOk }

/-- Witness for `forkSystemServer_registers_then_rechecks` with pid 3 and
a child observed dead at the re-check. -/
theorem forkSystemServer_registers_then_rechecks_witness :
    envOkSys.preForkOk = true ∧ envOkSys.forkResult = some 3 ∧ (0 : Int) < 3 ∧
      ((Zygote_nativeForkSystemServer 1000 1000 none 0 none 13 9 envOkSys 0
            true).2.actions =
          ParentAction.registerPid 3 :: ParentAction.recheckLiveness 3 ::
            (if true then [ParentAction.abortService] else []) ∧
        (Zygote_nativeForkSystemServer 1000 1000 none 0 none 13 9 envOkSys 0
              true).2.registry = 3 ∧
          (Zygote_nativeForkSystemServer 1000 1000 none 0 none 13 9 envOkSys 0
                true).2.returned = (if true then none else some 3)) :=
  ⟨rfl, rfl, by decide,
    forkSystemServer_registers_then_rechecks 1000 1000 none 0 none 13 9 envOkSys 0
      true 3 rfl rfl (by decide)⟩

/-- A spawn environment whose pre-fork quiescence step fails. -/
def envPreForkFail : SpawnEnv :=
  { preForkOk := false, forkResult := some 7, os := osAllOk }

/-- A spawn environment in which the `fork()` itself fails. -/
def envForkFail : SpawnEnv := { preForkOk := true, forkResult := none, os := osAllOk }

/-- C7 counterexample: when the pre-fork quiescence step fails, the code
runs `LOG(FATAL)` in the zygote itself: the spawning service does not
survive, so the failure is not refusable at the request level. -/
theorem preZygoteFork_failure_kills_service :
    ForkAndSpecializeCommon profileW envPreForkFail = SpawnResult.fatalService ∧
      serviceSurvives (ForkAndSpecializeCommon profileW envPreForkFail) = false :=
  ⟨rfl, rfl⟩

/-- C7 as amended: a pre-fork quiescence failure is fatal to the whole
spawning service, while a `fork()` failure is reported to the caller as a
failed request (`-1`) with the service surviving. -/
theorem prefork_fatal_fork_refusable (p : Profile) (envA envB : SpawnEnv)
    (hA : envA.preForkOk = false)
    (hB1 : envB.preForkOk = true) (hB2 : envB.forkResult = none) :
    ForkAndSpecializeCommon p envA = SpawnResult.fatalService ∧
      serviceSurvives (ForkAndSpecializeCommon p envA) = false ∧
        ForkAndSpecializeCommon p envB = SpawnResult.forkFailed (-1) ∧
          serviceSurvives (ForkAndSpecializeCommon p envB) = true ∧
            callerReturn (ForkAndSpecializeCommon p envB) = some (-1) := by
  refine ⟨?_, ?_, ?_, ?_, ?_⟩ <;>
    simp [ForkAndSpecializeCommon, hA, hB1, hB2, serviceSurvives, callerReturn]

/-- Witness for `prefork_fatal_fork_refusable` at the two concrete
failing environments. -/
theorem prefork_fatal_fork_refusable_witness :
    envPreForkFail.preForkOk = false ∧ envForkFail.preForkOk = true ∧
      envForkFail.forkResult = none ∧
        (ForkAndSpecializeCommon profileW envPreForkFail = SpawnResult.fatalService ∧
          serviceSurvives (ForkAndSpecializeCommon profileW envPreForkFail) = false ∧
            ForkAndSpecializeCommon profileW envForkFail = SpawnResult.forkFailed (-1) ∧
              serviceSurvives (ForkAndSpecializeCommon profileW envForkFail) = true ∧
                callerReturn (ForkAndSpecializeCommon profileW envForkFail) =
                  some (-1)) :=
  ⟨rfl, rfl, rfl, prefork_fatal_fork_refusable profileW envPreForkFail envForkFail
    rfl rfl rfl⟩

theorem mem_noRandomizeWorkaround {os : OS} {e : Event}
    (h : e ∈ (noRandomizeWorkaround os).1) : e = Event.personality := by
  rcases noRandomizeWorkaround_cases os with hn | hn <;> rw [hn] at h <;> simp_all

theorem mem_SetCapabilities {P E : Int} {os : OS} {e : Event}
    (h : e ∈ (SetCapabilities P E os).1) : e = Event.capset P E := by
  unfold SetCapabilities at h
  split at h <;> simp_all

theorem mem_SetSchedulerPolicy {os : OS} {e : Event}
    (h : e ∈ (SetSchedulerPolicy os).1) : e = Event.setSchedPolicy := by
  unfold SetSchedulerPolicy at h
  split at h <;> simp_all

theorem mem_selinuxSetContext {p : Profile} {os : OS} {e : Event}
    (h : e ∈ (selinuxSetContext p os).1) :
    e = Event.setcontext p.uid p.is_system_server p.se_info p.se_name := by
  unfold selinuxSetContext at h
  split at h <;> simp_all

/-- The hand-off event `DidForkFromZygote` is committed only by children
whose whole specialization sequence succeeded. -/
theorem didFork_mem_entry {p : Profile} {os : OS}
    (h : Event.didForkFromZygote ∈ (specializeChild p os).1) :
    (specializeChild p os).2 = true := by
  rw [specializeChild_fst] at h
  by_cases hpre : (preIdentity p os).2 = true
  · rw [if_pos hpre] at h
    rcases List.mem_append.mp h with h1 | h2
    · exact absurd (mem_preIdentity h1) (by simp [preEvent])
    · by_cases hid : (identityChange p os).2 = true
      · rw [if_pos hid] at h2
        rcases List.mem_append.mp h2 with h3 | h4
        · rcases mem_identityChange h3 with h5 | h5 <;> simp at h5
        · have hpost : (postIdentity p os).2 = true := by
            unfold postIdentity at h4
            rcases mem_seqStep.mp h4 with h5 | ⟨-, h5⟩
            · exact absurd (mem_noRandomizeWorkaround h5) (by simp)
            rcases mem_seqStep.mp h5 with h6 | ⟨hc, h6⟩
            · exact absurd (mem_SetCapabilities h6) (by simp)
            rcases mem_seqStep.mp h6 with h7 | ⟨hs, h7⟩
            · exact absurd (mem_SetSchedulerPolicy h7) (by simp)
            rcases mem_seqStep.mp h7 with h8 | ⟨hx, h8⟩
            · exact absurd (mem_selinuxSetContext h8) (by simp)
            · rw [SetCapabilities_snd] at hc
              rw [SetSchedulerPolicy_snd] at hs
              rw [selinuxSetContext_snd] at hx
              rw [postIdentity_snd]
              simp [hc, hs, hx]
          rw [specializeChild_snd]
          simp [hpre, hid, hpost]
      · rw [if_neg hid] at h2
        rcases mem_identityChange h2 with h5 | h5 <;> simp at h5
  · rw [if_neg hpre] at h
    exact absurd (mem_preIdentity h) (by simp [preEvent])

theorem setRLimitsList_snd (os : OS) (rs : List (List Int)) :
    (setRLimitsList os rs).2 = rlimitsAllOk os rs := by
  induction rs with
  | nil => rfl
  | cons r rest ih =>
    rcases r with _ | ⟨a, _ | ⟨b, _ | ⟨c, _ | ⟨d, r'⟩⟩⟩⟩
    · simp [setRLimitsList, rlimitsAllOk, List.all_cons]
    · simp [setRLimitsList, rlimitsAllOk, List.all_cons]
    · simp [setRLimitsList, rlimitsAllOk, List.all_cons]
    · by_cases hok : os.setrlimit_ok a b c = true <;>
        simp [setRLimitsList, rlimitsAllOk, List.all_cons, seqStep_snd, hok,
          ih, rlimitsAllOk]
    · simp [setRLimitsList, rlimitsAllOk, List.all_cons]

theorem rlimitEvents_append (l1 l2 : List Event) :
    rlimitEvents (l1 ++ l2) = rlimitEvents l1 ++ rlimitEvents l2 := by
  simp [rlimitEvents]

theorem rlimitEvents_setRLimitsList (os : OS) (rs : List (List Int))
    (h : (setRLimitsList os rs).2 = true) :
    rlimitEvents (setRLimitsList os rs).1 = rlimitTriples rs := by
  induction rs with
  | nil => rfl
  | cons r rest ih =>
    rcases r with _ | ⟨a, _ | ⟨b, _ | ⟨c, _ | ⟨d, r'⟩⟩⟩⟩
    · simp [setRLimitsList] at h
    · simp [setRLimitsList] at h
    · simp [setRLimitsList] at h
    · by_cases hok : os.setrlimit_ok a b c = true
      · have h' : (setRLimitsList os rest).2 = true := by
          simpa [setRLimitsList, hok, seqStep_snd] using h
        simp only [setRLimitsList, hok, if_true, seqStep, rlimitEvents,
          List.filterMap_cons, rlimitTriples]
        simp only [List.singleton_append]
        rw [List.filterMap_cons]
        simp only []
        exact congrArg (List.cons (a, b, c)) (ih h')
      · simp [setRLimitsList, hok] at h
    · simp [setRLimitsList] at h

theorem keepCapsIfNotRoot_fst_cases (p : Profile) (os : OS) :
    (keepCapsIfNotRoot p os).1 = [] ∨
      (keepCapsIfNotRoot p os).1 = [Event.enableKeepCaps] := by
  unfold keepCapsIfNotRoot EnableKeepCapabilities
  by_cases h : p.uid ≠ 0
  · by_cases h2 : os.keepcaps_ok = true
    · right; simp [h, h2]
    · left; simp [h, h2]
  · left; simp [h]

theorem SetGids_fst_cases (g : Option (List Int)) (os : OS) :
    (SetGids g os).1 = [] ∨ ∃ gs, (SetGids g os).1 = [Event.setgroups gs] := by
  cases g with
  | none => left; rfl
  | some gs =>
    by_cases h : os.setgroups_ok gs = true
    · right; exact ⟨gs, by simp [SetGids, h]⟩
    · left; simp [SetGids, h]

theorem SetRLimits_some (rs : List (List Int)) (os : OS) :
    SetRLimits (some rs) os = setRLimitsList os rs := rfl

theorem preIdentity_fst (p : Profile) (os : OS)
    (hpre : (preIdentity p os).2 = true) :
    (preIdentity p os).1 =
      Event.markZygoteChild :: ((keepCapsIfNotRoot p os).1 ++
        ((SetGids p.gids os).1 ++ (SetRLimits p.rlimits os).1)) := by
  rw [preIdentity_snd] at hpre
  simp only [Bool.and_eq_true] at hpre
  obtain ⟨hk, hm, hg, hr⟩ := hpre
  unfold preIdentity
  rw [seqStep_fst, seqStep_fst, seqStep_fst, seqStep_fst]
  simp [hk, hm, hg, hr, MountExternalStorage_fst]

theorem rlimitEvents_preIdentity (p : Profile) (os : OS) (rs : List (List Int))
    (h : p.rlimits = some rs) (hpre : (preIdentity p os).2 = true) :
    rlimitEvents (preIdentity p os).1 = rlimitTriples rs := by
  have hr : (SetRLimits p.rlimits os).2 = true := by
    rw [preIdentity_snd] at hpre
    simp only [Bool.and_eq_true] at hpre
    exact hpre.2.2.2
  rw [h, SetRLimits_some] at hr
  rw [preIdentity_fst p os hpre, h, SetRLimits_some]
  have hmain := rlimitEvents_setRLimitsList os rs hr
  rcases keepCapsIfNotRoot_fst_cases p os with hkc | hkc <;>
    rcases SetGids_fst_cases p.gids os with hgc | ⟨gs, hgc⟩ <;>
      (rw [hkc, hgc];
        simp only [rlimitEvents, List.filterMap_cons, List.filterMap_append,
          List.nil_append] at hmain ⊢;
        simpa using hmain)

/-- C8: resource-limit application is all-or-nothing: if any row is
malformed or any `setrlimit` fails, the child dies before the hand-off
event is ever committed; when the sequence completes, every row was a
well-formed accepted triple and the committed trace applies exactly the
profile's `(resource, soft, hard)` triples, in order. -/
theorem rlimits_all_or_nothing (p : Profile) (os : OS) (rs : List (List Int))
    (h : p.rlimits = some rs) :
    (rlimitsAllOk os rs = false →
        (specializeChild p os).2 = false ∧
          Event.didForkFromZygote ∉ (specializeChild p os).1) ∧
      ((specializeChild p os).2 = true →
        rlimitsAllOk os rs = true ∧
          rlimitEvents (specializeChild p os).1 = rlimitTriples rs) := by
  have hAllOfEntry : (specializeChild p os).2 = true → rlimitsAllOk os rs = true := by
    intro hdone
    rw [specializeChild_snd] at hdone
    simp only [Bool.and_eq_true] at hdone
    have hpre := hdone.1
    rw [preIdentity_snd] at hpre
    simp only [Bool.and_eq_true] at hpre
    have hr := hpre.2.2.2
    rw [h, SetRLimits_some, setRLimitsList_snd] at hr
    exact hr
  constructor
  · intro hbad
    have hne : ¬ (specializeChild p os).2 = true := by
      intro hdone
      rw [hAllOfEntry hdone] at hbad
      exact Bool.noConfusion hbad
    refine ⟨?_, fun hmem => hne (didFork_mem_entry hmem)⟩
    cases hcase : (specializeChild p os).2
    · rfl
    · exact absurd hcase hne
  · intro hdone
    refine ⟨hAllOfEntry hdone, ?_⟩
    have hsnd := hdone
    rw [specializeChild_snd] at hsnd
    simp only [Bool.and_eq_true] at hsnd
    obtain ⟨hpre, hid, hpost⟩ := hsnd
    obtain ⟨per, hper, hpost1⟩ := postIdentity_entry hpost
    rw [specializeChild_fst, if_pos hpre, if_pos hid, rlimitEvents_append,
      rlimitEvents_append, rlimitEvents_preIdentity p os rs h hpre,
      identityChange_entry hid, hpost1]
    rcases hper with hper | hper <;>
      simp [hper, rlimitEvents, List.filterMap_cons, List.filterMap_append]

/-- Witness for `rlimits_all_or_nothing` at the concrete profile carrying
one resource-limit triple, on the all-succeeding oracle. -/
theorem rlimits_all_or_nothing_witness :
    profileW.rlimits = some [[7, 128, 256]] ∧
      ((rlimitsAllOk osAllOk [[7, 128, 256]] = false →
          (specializeChild profileW osAllOk).2 = false ∧
            Event.didForkFromZygote ∉ (specializeChild profileW osAllOk).1) ∧
        ((specializeChild profileW osAllOk).2 = true →
          rlimitsAllOk osAllOk [[7, 128, 256]] = true ∧
            rlimitEvents (specializeChild profileW osAllOk).1 =
              rlimitTriples [[7, 128, 256]])) :=
  ⟨rfl, rlimits_all_or_nothing profileW osAllOk [[7, 128, 256]] rfl⟩

/-- C10: the application-spawn entry point invokes the common path with
both capability bitmasks fixed to the literal zero, so every application
child that completes specialization ends with empty permitted and
effective capability sets; only the singleton entry point passes the
caller's (possibly non-zero) bitmasks through. -/
theorem app_spawn_forces_empty_caps (uid gid : Int) (gids : Option (List Int))
    (debug_flags : Int) (rlimits : Option (List (List Int))) (mount_external : Int)
    (se_info se_name : Option String) (pc ec : Int) (env : SpawnEnv) (s0 : ProcState)
    (hdone : (specializeChild (appSpawnProfile uid gid gids debug_flags rlimits
        mount_external se_info se_name) env.os).2 = true) :
    Zygote_nativeForkAndSpecialize uid gid gids debug_flags rlimits mount_external
        se_info se_name env =
      ForkAndSpecializeCommon (appSpawnProfile uid gid gids debug_flags rlimits
          mount_external se_info se_name) env ∧
      (appSpawnProfile uid gid gids debug_flags rlimits mount_external se_info
          se_name).permittedCapabilities = 0 ∧
        (appSpawnProfile uid gid gids debug_flags rlimits mount_external se_info
            se_name).effectiveCapabilities = 0 ∧
          (runTrace s0 (specializeChild (appSpawnProfile uid gid gids debug_flags
              rlimits mount_external se_info se_name) env.os).1).permitted = 0 ∧
            (runTrace s0 (specializeChild (appSpawnProfile uid gid gids debug_flags
                rlimits mount_external se_info se_name) env.os).1).effective = 0 ∧
              (systemServerProfile uid gid gids debug_flags rlimits pc
                  ec).permittedCapabilities = pc ∧
                (systemServerProfile uid gid gids debug_flags rlimits pc
                    ec).effectiveCapabilities = ec := by
  obtain ⟨h1, h2⟩ := specializeChild_caps
    (appSpawnProfile uid gid gids debug_flags rlimits mount_external se_info se_name)
    env.os s0 hdone
  exact ⟨rfl, rfl, rfl, h1, h2, rfl, rfl⟩

/-- Witness for `app_spawn_forces_empty_caps` at concrete arguments. -/
theorem app_spawn_forces_empty_caps_witness :
    (specializeChild (appSpawnProfile 1000 1000 none 0 none 0 none none)
        envOk.os).2 = true ∧
      (Zygote_nativeForkAndSpecialize 1000 1000 none 0 none 0 none none envOk =
          ForkAndSpecializeCommon (appSpawnProfile 1000 1000 none 0 none 0 none none)
            envOk ∧
        (appSpawnProfile 1000 1000 none 0 none 0 none none).permittedCapabilities = 0 ∧
          (appSpawnProfile 1000 1000 none 0 none 0 none none).effectiveCapabilities = 0 ∧
            (runTrace procState0 (specializeChild
                (appSpawnProfile 1000 1000 none 0 none 0 none none)
                envOk.os).1).permitted = 0 ∧
              (runTrace procState0 (specializeChild
                  (appSpawnProfile 1000 1000 none 0 none 0 none none)
                  envOk.os).1).effective = 0 ∧
                (systemServerProfile 1000 1000 none 0 none 13 9).permittedCapabilities
                    = 13 ∧
                  (systemServerProfile 1000 1000 none 0 none 13 9).effectiveCapabilities
                    = 9) :=
  ⟨by decide, app_spawn_forces_empty_caps 1000 1000 none 0 none 0 none none 13 9
    envOk procState0 (by decide)⟩

/-- C2: in every forked child, on every syscall oracle, the committed
event trace never contains a `setuid` that is not strictly preceded by a
`setgid` — the group-identity change commits strictly before the
user-identity change. -/
theorem setgid_commits_before_setuid (p : Profile) (os : OS) :
    noSetuidBeforeSetgid (specializeChild p os).1 = true :=
  specializeChild_setgid_before_setuid p os

/-- Witness for `execShell_replaces_or_exits_127` at the spec's concrete
command `echo 1`. -/
theorem execShell_replaces_or_exits_127_witness :
    Zygote_nativeExecShell (some "echo 1") true =
        ExecOutcome.replaced PATH_BSHELL [PATH_BSHELL, "-c", "echo 1"] ∧
      Zygote_nativeExecShell (some "echo 1") true ≠ ExecOutcome.returned ∧
        Zygote_nativeExecShell (some "echo 1") false = ExecOutcome.exited 127 :=
  execShell_replaces_or_exits_127 "echo 1"

end Zygote
